import Mathlib

/-!
Verification of the pliron IR-framework core against its specification.

The Rust sources are shallowly embedded: each Rust function that a claim
refers to is translated into an executable Lean definition of the same
name (module paths become namespaces).  Text is modelled as `List Char`;
machine integers as `Nat`.  The `combine` parser combinators used by the
sources follow Parsec-style commit semantics: a sub-parser that fails
*after consuming input* aborts an enclosing `choice`, while a sub-parser
that fails *without consuming* lets `choice` try the next alternative.
That distinction is embedded explicitly via the `PRes` result type below.
-/

namespace Pliron

/-! ## Text and positions -/

/-- A source position: line and column, both 1-based, as tracked by
`combine::stream::position::SourcePosition`. -/
structure Pos where
  line : Nat
  col : Nat
deriving DecidableEq, Repr

/-- Advance a position over one consumed character
(`SourcePosition::update`): a newline moves to the next line, column 1;
any other character moves one column right. -/
def Pos.adv (p : Pos) (c : Char) : Pos :=
  if c = '\n' then ⟨p.line + 1, 1⟩ else ⟨p.line, p.col + 1⟩

/-- Advance a position over a list of consumed characters. -/
def Pos.advs (p : Pos) (l : List Char) : Pos :=
  l.foldl Pos.adv p

/-! ## Location and error model (`src/location.rs`, `src/result.rs`) -/

/-- `Location`: `Unknown` or a concrete source position bound to a
registered source.  The source is modelled by its display name. -/
inductive Location where
  | Unknown : Location
  | SrcPos (src : List Char) (pos : Pos) : Location
deriving DecidableEq, Repr

/-- Printing a `Location` (modelled after the golden test output in
`src/result.rs`: `/tmp/test.pliron: line: 1, column: 2`). -/
def Location.print : Location → List Char
  | .Unknown => ("unknown location").toList
  | .SrcPos src pos =>
      src ++ (": line: ").toList ++ (toString pos.line).toList
          ++ (", column: ").toList ++ (toString pos.col).toList

/-- The kinds of errors during compilation (`ErrorKind` in `src/result.rs`). -/
inductive ErrorKind where
  | InvalidInput : ErrorKind
  | VerificationFailed : ErrorKind
  | InvalidArgument : ErrorKind
deriving DecidableEq, Repr

/-- The `thiserror` display message of each `ErrorKind`. -/
def ErrorKind.msg : ErrorKind → List Char
  | .InvalidInput => ("invalid input program").toList
  | .VerificationFailed => ("verification failed").toList
  | .InvalidArgument => ("invalid argument").toList

/-- `Error { kind, err, loc }` from `src/result.rs`.  The boxed cause
`err : Box<dyn std::error::Error>` is either another `Error`
(`errCause`) or any other error value, modelled by its display message
(`leafCause`). -/
inductive Error where
  | leafCause (kind : ErrorKind) (loc : Location) (msg : List Char) : Error
  | errCause (kind : ErrorKind) (loc : Location) (inner : Error) : Error
deriving DecidableEq, Repr

/-- The location carried by an error (`Located for Error`). -/
def Error.loc : Error → Location
  | .leafCause _ l _ => l
  | .errCause _ l _ => l

/-- The kind carried by an error. -/
def Error.kind : Error → ErrorKind
  | .leafCause k _ _ => k
  | .errCause k _ _ => k

/-- `Printable for Error` (`src/result.rs` lines 35-55): one line
`[<location>] Compilation error: <kind message>.` then, if the cause
downcasts to `Error`, its own rendering, otherwise the cause's message. -/
def Error.print : Error → List Char
  | .leafCause k l m =>
      ("[").toList ++ l.print ++ ("] Compilation error: ").toList
        ++ k.msg ++ (".").toList ++ [Char.ofNat 10] ++ m
  | .errCause k l inner =>
      ("[").toList ++ l.print ++ ("] Compilation error: ").toList
        ++ k.msg ++ (".").toList ++ [Char.ofNat 10] ++ inner.print

/-- Wrapping an existing error as the cause of a new error with a new
location, as in `input_error!(loc1, res)` in the sources: builds a new
`Error` whose boxed cause is the inner error. -/
def Error.wrap (kind : ErrorKind) (loc : Location) (inner : Error) : Error :=
  .errCause kind loc inner

/-- The cause of an error when it is itself an `Error`
(`self.err.downcast_ref::<Error>()`). -/
def Error.cause? : Error → Option Error
  | .leafCause _ _ _ => none
  | .errCause _ _ inner => some inner

/-! ## Dialect registry (`src/dialect.rs`) -/

/-- `DialectName`: safe wrapper around a `String`; equality is string
equality. -/
structure DialectName where
  name : List Char
deriving DecidableEq, Repr

/-- `OpId`: qualified identifier `(DialectName, local name)` of an op. -/
structure OpId where
  dialect : DialectName
  opname : List Char
deriving DecidableEq, Repr

/-- `TypeId`: qualified identifier of a type kind. -/
structure TypeId where
  dialect : DialectName
  tyname : List Char
deriving DecidableEq, Repr

/-- `AttrId`: qualified identifier of an attribute kind. -/
structure AttrId where
  dialect : DialectName
  attrname : List Char
deriving DecidableEq, Repr

/-- `Dialect`: a named collection of op, type and attribute ids. -/
structure Dialect where
  name : DialectName
  ops : List OpId
  types : List TypeId
  attributes : List AttrId
deriving DecidableEq, Repr

/-- The `Context`'s dialect table `dialects: FxHashMap<DialectName, Dialect>`,
modelled as an association list with unique keys (only the key-value
mapping is observable through the claims). -/
structure Context where
  dialects : List (DialectName × Dialect)
deriving DecidableEq, Repr

/-- Key lookup in the dialect table (`ctx.dialects.get`). -/
def Context.getDialect (ctx : Context) (name : DialectName) : Option Dialect :=
  (ctx.dialects.find? (fun p => p.1 = name)).map Prod.snd

/-- Key membership in the dialect table (`ctx.dialects.contains_key`). -/
def Context.containsDialect (ctx : Context) (name : DialectName) : Bool :=
  ctx.dialects.any (fun p => p.1 = name)

/-- `Dialect::register` (`src/dialect.rs` lines 105-108):
`ctx.dialects.entry(self.name.clone()).or_insert(self)` — insert only
if the key is absent; otherwise the table is left untouched. -/
def Dialect.register (d : Dialect) (ctx : Context) : Context :=
  if ctx.containsDialect d.name then ctx
  else { dialects := ctx.dialects ++ [(d.name, d)] }

/-- Outcome of a Rust function that may abort via a failed `assert!`:
either the process aborts (no value, no recoverable error), or the
function returns normally. -/
inductive AssertResult (α : Type) where
  | assertFailed : AssertResult α
  | ok (a : α) : AssertResult α
deriving DecidableEq, Repr

/-- `Dialect::add_op` (`src/dialect.rs` lines 110-114):
`assert!(op.dialect == self.name); self.ops.push(op)`. -/
def Dialect.add_op (d : Dialect) (op : OpId) : AssertResult Dialect :=
  if op.dialect = d.name then .ok { d with ops := d.ops ++ [op] }
  else .assertFailed

/-- `Dialect::add_type` (`src/dialect.rs` lines 116-120). -/
def Dialect.add_type (d : Dialect) (ty : TypeId) : AssertResult Dialect :=
  if ty.dialect = d.name then .ok { d with types := d.types ++ [ty] }
  else .assertFailed

/-- `Dialect::add_attr` (`src/dialect.rs` lines 122-126). -/
def Dialect.add_attr (d : Dialect) (attr : AttrId) : AssertResult Dialect :=
  if attr.dialect = d.name then .ok { d with attributes := d.attributes ++ [attr] }
  else .assertFailed

/-! ## A model of the `combine` combinators used by the sources

`combine` parsers have Parsec-style commit semantics: an alternative of
`choice` is only tried when the previous alternative failed *without
consuming input*; `string(s)` consumes the matched prefix and therefore
fails "consumed" as soon as one character of `s` matched. -/

/-- Result of running a parser on a character stream: success with the
remaining input, failure without having consumed input (`efail`), or
failure after consuming input (`cfail`, which commits an enclosing
`choice`). -/
inductive PRes (α : Type) where
  | ok (a : α) (rest : List Char) : PRes α
  | efail (msg : List Char) : PRes α
  | cfail (msg : List Char) : PRes α
deriving DecidableEq, Repr

/-- Matching loop of `combine::parser::char::string`: compare the
expected characters one by one, tracking whether any input was consumed. -/
def tokensGo (s : List Char) (input : List Char) (consumed : Bool) : PRes Unit :=
  match s with
  | [] => .ok () input
  | c :: s' =>
    match input with
    | [] =>
      if consumed then .cfail ("unexpected end of input").toList
      else .efail ("unexpected end of input").toList
    | d :: input' =>
      if c = d then tokensGo s' input' true
      else if consumed then .cfail (("unexpected ").toList ++ [d])
      else .efail (("unexpected ").toList ++ [d])

/-- `combine::parser::char::string(s)`. -/
def pstring (s : List Char) (input : List Char) : PRes Unit :=
  tokensGo s input false

/-- `combine::choice` over literal-string alternatives, each mapped to a
result value: try alternatives in order, moving on only after an `efail`;
a `cfail` aborts the whole choice. -/
def pchoice {α : Type} (alts : List (List Char × α)) (input : List Char) : PRes α :=
  match alts with
  | [] => .efail ("no alternative matched").toList
  | (s, a) :: rest =>
    match pstring s input with
    | .ok _ r => .ok a r
    | .cfail m => .cfail m
    | .efail _ => pchoice rest input

/-! ## LLVM dialect attributes (`src/dialects/llvm/attributes.rs`) -/

/-- `IntegerOverflowFlagsAttr`: integer overflow flags for arithmetic
operations. -/
inductive IntegerOverflowFlagsAttr where
  | None : IntegerOverflowFlagsAttr
  | Nsw : IntegerOverflowFlagsAttr
  | Nuw : IntegerOverflowFlagsAttr
deriving DecidableEq, Repr

/-- `Printable for IntegerOverflowFlagsAttr` (lines 48-61). -/
def IntegerOverflowFlagsAttr.print : IntegerOverflowFlagsAttr → List Char
  | .None => ("none").toList
  | .Nsw => ("nsw").toList
  | .Nuw => ("nuw").toList

/-- `Parsable for IntegerOverflowFlagsAttr` (lines 28-44):
`choice((string("none"), string("nsw"), string("nuw")))` with each
alternative mapped to the corresponding variant. -/
def IntegerOverflowFlagsAttr.parse (input : List Char) : PRes IntegerOverflowFlagsAttr :=
  pchoice
    [(("none").toList, IntegerOverflowFlagsAttr.None),
     (("nsw").toList, IntegerOverflowFlagsAttr.Nsw),
     (("nuw").toList, IntegerOverflowFlagsAttr.Nuw)] input

/-- `ICmpPredicateAttr` (lines 63-76). -/
inductive ICmpPredicateAttr where
  | EQ | NE | SLT | SLE | SGT | SGE | ULT | ULE | UGT | UGE
deriving DecidableEq, Repr

/-- `Printable for ICmpPredicateAttr` (lines 78-98). -/
def ICmpPredicateAttr.print : ICmpPredicateAttr → List Char
  | .EQ => ("eq").toList
  | .NE => ("ne").toList
  | .SLT => ("slt").toList
  | .SLE => ("sle").toList
  | .SGT => ("sgt").toList
  | .SGE => ("sge").toList
  | .ULT => ("ult").toList
  | .ULE => ("ule").toList
  | .UGT => ("ugt").toList
  | .UGE => ("uge").toList

/-- `Parsable for ICmpPredicateAttr` (lines 100-123): a `choice` of ten
`string` parsers in source order. -/
def ICmpPredicateAttr.parse (input : List Char) : PRes ICmpPredicateAttr :=
  pchoice
    [(("eq").toList, ICmpPredicateAttr.EQ),
     (("ne").toList, ICmpPredicateAttr.NE),
     (("slt").toList, ICmpPredicateAttr.SLT),
     (("sle").toList, ICmpPredicateAttr.SLE),
     (("sgt").toList, ICmpPredicateAttr.SGT),
     (("sge").toList, ICmpPredicateAttr.SGE),
     (("ult").toList, ICmpPredicateAttr.ULT),
     (("ule").toList, ICmpPredicateAttr.ULE),
     (("ugt").toList, ICmpPredicateAttr.UGT),
     (("uge").toList, ICmpPredicateAttr.UGE)] input

/-! ## Decimal digits -/

/-- The digit character for `d < 10`. -/
def digitChar (d : Nat) : Char := Char.ofNat (48 + d)

/-- Numeric value of a digit character. -/
def digVal (c : Char) : Nat := c.toNat - 48

/-- Fuel-driven decimal rendering; `fuel > n` suffices since the
recursion divides by ten. -/
def natDigitsAux : Nat → Nat → List Char
  | 0, _ => []
  | fuel + 1, n =>
    if n < 10 then [digitChar n]
    else natDigitsAux fuel (n / 10) ++ [digitChar (n % 10)]

/-- Decimal rendering of a natural number, most significant digit first. -/
def natDigits (n : Nat) : List Char := natDigitsAux (n + 1) n

/-- Numeric value of a list of decimal digit characters. -/
def decNat (l : List Char) : Nat :=
  l.foldl (fun acc c => acc * 10 + digVal c) 0

/-! ## The arbitrary-precision integer (`src/utils/apint.rs`, wrapping `awint`)

Modelled from the spec: the consumed external value type "must expose
construction from a decimal digit string plus explicit bit width and
radix, a bit-width accessor, a zero test, and signed/unsigned decimal
rendering".  A `bw`-bit value is its two's-complement bit pattern, a
natural number below `2 ^ bw`. -/

/-- An arbitrary-precision integer with an explicit bit width. -/
structure APInt where
  bw : Nat
  val : Nat
  isLt : val < 2 ^ bw

instance : DecidableEq APInt := fun a b =>
  if h : a.bw = b.bw ∧ a.val = b.val then
    isTrue (by obtain ⟨a1, a2, a3⟩ := a; obtain ⟨b1, b2, b3⟩ := b; simp_all)
  else
    isFalse (by intro he; subst he; simp at h)

/-- `APInt::is_zero`. -/
def APInt.is_zero (a : APInt) : Bool := a.val = 0

/-- `APInt::to_string_decimal(signed)`: unsigned decimal, or signed
two's-complement decimal when `signed` is set. -/
def APInt.to_string_decimal (a : APInt) (signed : Bool) : List Char :=
  if signed then
    if 2 ^ (a.bw - 1) ≤ a.val then '-' :: natDigits (2 ^ a.bw - a.val)
    else natDigits a.val
  else natDigits a.val

/-- `APInt::from_str(s, w, 10)`: an optional sign followed by decimal
digits; fails if the digits are malformed or the value does not fit in
`w` bits (negative values use two's complement). -/
def APInt.from_str (s : List Char) (w : Nat) : Except (List Char) APInt :=
  match s with
  | [] => .error ("invalid decimal digits").toList
  | c :: ds =>
    if c = '-' then
      if ds ≠ [] ∧ ds.all Char.isDigit then
        if 0 < w ∧ decNat ds ≤ 2 ^ (w - 1) then
          .ok ⟨w, (2 ^ w - decNat ds) % 2 ^ w, Nat.mod_lt _ (Nat.two_pow_pos w)⟩
        else .error ("value does not fit in the given bitwidth").toList
      else .error ("invalid decimal digits").toList
    else
      let ds' := if c = '+' then ds else c :: ds
      if ds' ≠ [] ∧ ds'.all Char.isDigit then
        if h : decNat ds' < 2 ^ w then .ok ⟨w, decNat ds', h⟩
        else .error ("value does not fit in the given bitwidth").toList
      else .error ("invalid decimal digits").toList

/-! ## Builtin integer type (`src/builtin/types.rs`, not under `src/`)

Modelled from the spec and the repository's own golden tests: a 64-bit
signed integer type prints as `si64`, and the type parser expects one of
the prefixes `si`, `ui`, `i` followed by the decimal width. -/

/-- Signedness of an `IntegerType`. -/
inductive Signedness where
  | Signed | Unsigned | Signless
deriving DecidableEq, Repr

/-- Prefix of the textual form of an `IntegerType`. -/
def Signedness.print : Signedness → List Char
  | .Signed => ("si").toList
  | .Unsigned => ("ui").toList
  | .Signless => ("i").toList

/-- The builtin `IntegerType`.  A `TypePtr<IntegerType>` is represented
by the type value itself: interning (§4.1 of the spec) makes handle
identity coincide with structural equality. -/
structure IntegerType where
  width : Nat
  signedness : Signedness
deriving DecidableEq, Repr

/-- Textual form of an `IntegerType` (e.g. `si64`). -/
def IntegerType.print (t : IntegerType) : List Char :=
  t.signedness.print ++ natDigits t.width

/-- Modelled from the spec: `IntegerType::parse` — a `choice` of the
`string` parsers `si`, `ui`, `i` (the repo test expects exactly these
alternatives) followed by `many1` decimal digits for the width. -/
def IntegerType.parse (input : List Char) : PRes IntegerType :=
  match pchoice
      [(("si").toList, Signedness.Signed),
       (("ui").toList, Signedness.Unsigned),
       (("i").toList, Signedness.Signless)] input with
  | .ok s rest =>
    let ds := rest.takeWhile Char.isDigit
    if ds = [] then .cfail ("expected decimal width").toList
    else .ok ⟨decNat ds, s⟩ (rest.dropWhile Char.isDigit)
  | .efail m => .efail m
  | .cfail m => .cfail m

/-! ## Builtin attributes (`src/builtin/attributes.rs`) -/

/-- `StringAttr(String)`: an attribute containing a string. -/
structure StringAttr where
  val : List Char
deriving DecidableEq, Repr

/-- Escaping of one character inside a quoted string literal. -/
def escapeChar (c : Char) : List Char :=
  if c = '\\' then ['\\', '\\']
  else if c = '"' then ['\\', '"'] else [c]

/-- Escaping of a whole payload. -/
def escapeStr : List Char → List Char
  | [] => []
  | c :: cs => escapeChar c ++ escapeStr cs

/-- Modelled from the spec: `irfmt::printers::quoted` (not under `src/`)
— printing "is the structural mirror of parsing", so the payload is
emitted between double quotes with `\` and `"` escaped and every other
character verbatim. -/
def quoted (s : List Char) : List Char :=
  '"' :: escapeStr s ++ ['"']

/-- `Printable for StringAttr` (lines 70-79): `quoted(&self.0)`. -/
def StringAttr.print (a : StringAttr) : List Char := quoted a.val

/-- Result of `StringAttr::parse`: the parsed attribute with the rest of
the input and the position after the closing quote, or a located error. -/
inductive StrPRes where
  | ok (a : StringAttr) (rest : List Char) (pos : Pos) : StrPRes
  | err (msg : List Char) (loc : Pos) : StrPRes
deriving DecidableEq, Repr

/-- Body loop of `StringAttr::parse` (lines 83-122):
`many(escaped_char.or(none_of("\"")))` inside `between(token('"'), token('"'), …)`.
For an escape, the source captures `loc` *before* the escape parser
runs, i.e. at the backslash, and reports
`Unexpected escaped character \c` there for any `c` other than `\\` and `"`. -/
def StringAttr.parseLoop (acc : List Char) (input : List Char) (pos : Pos) : StrPRes :=
  match input with
  | [] => .err ("unexpected end of input").toList pos
  | c :: rest =>
    if c = '"' then .ok ⟨acc.reverse⟩ rest (pos.adv '"')
    else if c = '\\' then
      match rest with
      | [] => .err ("unexpected end of input").toList (pos.adv '\\')
      | c2 :: rest' =>
        if c2 = '\\' ∨ c2 = '"' then
          StringAttr.parseLoop (c2 :: acc) rest' ((pos.adv '\\').adv c2)
        else .err (("Unexpected escaped character \\").toList ++ [c2]) pos
    else StringAttr.parseLoop (c :: acc) rest (pos.adv c)

/-- `Parsable for StringAttr` (lines 83-122): a double-quote delimited
string with possibly escaped characters in between. -/
def StringAttr.parse (input : List Char) (pos : Pos) : StrPRes :=
  match input with
  | '"' :: rest => StringAttr.parseLoop [] rest (pos.adv '"')
  | _ => .err ("expected opening quote").toList pos

/-- `IntegerAttr { ty: TypePtr<IntegerType>, val: APInt }` (lines 126-131).
The interned `TypePtr` is represented by the `IntegerType` value itself. -/
structure IntegerAttr where
  ty : IntegerType
  val : APInt
deriving DecidableEq

/-- `Printable for IntegerAttr` (lines 133-149):
`<{val decimal, signed iff the type is signed}: {type}>`. -/
def IntegerAttr.print (a : IntegerAttr) : List Char :=
  '<' :: a.val.to_string_decimal (decide (a.ty.signedness = Signedness.Signed))
    ++ (": ").toList ++ a.ty.print ++ ['>']

/-- The `thiserror` message of `IntegerAttrBitwidthErr` (lines 151-153). -/
def IntegerAttrBitwidthErrMsg : List Char :=
  ("The bitwidth type does not match the bitwidth of the value.").toList

/-- `Verify for IntegerAttr` (lines 155-162): error iff the declared
type's width differs from the payload's bit width
(`verify_err_noloc!` builds a `VerificationFailed` error with
`Location::Unknown`). -/
def IntegerAttr.verify (a : IntegerAttr) : Except Error Unit :=
  if a.ty.width ≠ a.val.bw then
    .error (.leafCause .VerificationFailed .Unknown IntegerAttrBitwidthErrMsg)
  else .ok ()

/-- A sign or digit character, accepted by the payload scanner
`many1(digit().or(char('-').or(char('+'))))` of `IntegerAttr::parse`. -/
def isSignDigit (c : Char) : Bool := c.isDigit || c = '-' || c = '+'

/-- Whitespace as skipped by `combine::parser::char::spaces()`. -/
def isSpace (c : Char) : Bool := c = ' ' || c = '\t' || c = '\r' || c = '\n'

/-- `Parsable for IntegerAttr` (lines 177-206):
`between(token('<'), token('>'), spaces().with(many1(digit|'-'|'+')).skip(spaced(token(':'))).and(IntegerType::parser))`,
then `APInt::from_str(digits, width, 10)`.  `spaced(p)` runs `p`
surrounded by optional whitespace. -/
def IntegerAttr.parse (input : List Char) : PRes IntegerAttr :=
  match input with
  | [] => .efail ("expected opening angle bracket").toList
  | c0 :: rest =>
    if c0 ≠ '<' then .efail ("expected opening angle bracket").toList
    else
      let rest1 := rest.dropWhile isSpace
      let digits := rest1.takeWhile isSignDigit
      let rest2 := rest1.dropWhile isSignDigit
      if digits = [] then .cfail ("expected digit, sign").toList
      else
        match rest2.dropWhile isSpace with
        | [] => .cfail ("expected colon").toList
        | c1 :: rest3 =>
          if c1 ≠ ':' then .cfail ("expected colon").toList
          else
            let rest4 := rest3.dropWhile isSpace
            match IntegerType.parse rest4 with
            | .ok ty rest5 =>
              match rest5 with
              | [] => .cfail ("expected closing angle bracket").toList
              | c2 :: rest6 =>
                if c2 ≠ '>' then .cfail ("expected closing angle bracket").toList
                else
                  match APInt.from_str digits ty.width with
                  | .ok v => .ok ⟨ty, v⟩ rest6
                  | .error e => .cfail e
            | .efail m => .cfail m
            | .cfail m => .cfail m

/-- A type-erased `TypeObj`.  `IntegerType` is the only type whose
definition is in scope (`builtin/types.rs` is not under `src/`). -/
inductive TypeObj where
  | integer (t : IntegerType)
deriving DecidableEq, Repr

/-- Generic printing of a type value. -/
def TypeObj.print : TypeObj → List Char
  | .integer t => t.print

/-- Generic parsing of a type value (dialect dispatch reduces to the one
modelled kind). -/
def TypeObj.parse (input : List Char) : PRes TypeObj :=
  match IntegerType.parse input with
  | .ok t rest => .ok (.integer t) rest
  | .efail m => .efail m
  | .cfail m => .cfail m

/-- `TypeAttr(Ptr<TypeObj>)` (lines 384-393): an attribute that does
nothing but hold a type. -/
structure TypeAttr where
  ty : TypeObj
deriving DecidableEq, Repr

/-- The `#[format_attribute("$0")]` printer of `TypeAttr`: the held type. -/
def TypeAttr.print (a : TypeAttr) : List Char := a.ty.print

/-- The `#[format_attribute("$0")]` parser of `TypeAttr`: a type. -/
def TypeAttr.parse (input : List Char) : PRes TypeAttr :=
  match TypeObj.parse input with
  | .ok t rest => .ok ⟨t⟩ rest
  | .efail m => .efail m
  | .cfail m => .cfail m

/-! ## Qualified-name parsing (`src/dialect.rs` lines 38-60) -/

/-- First character of a bare identifier. -/
def isIdStart (c : Char) : Bool := c.isAlpha || c = '_'

/-- Subsequent character of a bare identifier. -/
def isIdChar (c : Char) : Bool := c.isAlphanum || c = '_'

/-- Modelled from the spec: `parsable::parse_id` (`parsable.rs` is not
under `src/`) "reads a bare identifier": a letter or underscore followed
by letters, digits and underscores. -/
def parse_id (input : List Char) : Option (List Char × List Char) :=
  match input with
  | c :: _ =>
    if isIdStart c then some (input.takeWhile isIdChar, input.dropWhile isIdChar)
    else none
  | [] => none

/-- A located parse error.  `combine` parse failures surface as
recoverable `InvalidInput` errors (spec §4.2); the location is where the
reported failure occurred. -/
structure ParseErr where
  kind : ErrorKind
  msg : List Char
  loc : Pos
deriving DecidableEq, Repr

/-- `Parsable for DialectName` (`src/dialect.rs` lines 38-60): read a
bare identifier, then require membership in `ctx.dialects`; absence
yields `Unregistered dialect {name}` reported at the position where the
parse began (the identifier's start), as fixed by the repository's own
golden test. -/
def DialectName.parse (ctx : Context) (input : List Char) (pos : Pos) :
    Except ParseErr (DialectName × List Char) :=
  match parse_id input with
  | none => .error ⟨.InvalidInput, ("expected identifier").toList, pos⟩
  | some (id, rest) =>
    if ctx.containsDialect ⟨id⟩ then .ok (⟨id⟩, rest)
    else .error ⟨.InvalidInput, ("Unregistered dialect ").toList ++ id, pos⟩

/-! ## Operations and the LLVM op interfaces
(`src/dialects/llvm/op_interfaces.rs`) -/

/-- A type-erased attribute value (`AttrObj`), restricted to the
attribute kinds the claims are about. -/
inductive AttrObj where
  | integerOverflowFlags (f : IntegerOverflowFlagsAttr)
  | icmpPredicate (p : ICmpPredicateAttr)
  | stringAttr (s : StringAttr)
deriving DecidableEq, Repr

/-- `attr.is::<IntegerOverflowFlagsAttr>()`. -/
def AttrObj.isIntegerOverflowFlags : AttrObj → Bool
  | .integerOverflowFlags _ => true
  | _ => false

/-- An SSA `Value` (a use-def edge); its type is intrinsic here since
the `Context` only serves to resolve it. -/
structure Value where
  vname : List Char
  ty : TypeObj
deriving DecidableEq, Repr

/-- `Value::get_type(ctx)`. -/
def Value.get_type (v : Value) : TypeObj := v.ty

/-- Modelled from the spec: an `Operation` (`operation.rs` is not under
`src/`) "holds an ordered sequence of operand `Value`s, an ordered
sequence of result types, and an `AttributeDict`". -/
structure Operation where
  opid : OpId
  loc : Location
  result_types : List TypeObj
  operands : List Value
  attributes : List (List Char × AttrObj)
deriving DecidableEq, Repr

/-- Modelled from the spec: `Operation::new(ctx, opid, result_types,
operands, 0)` builds a fresh operation holding exactly those result
types and operands, with an empty attribute dictionary. -/
def Operation.new (opid : OpId) (result_types : List TypeObj) (operands : List Value) :
    Operation :=
  { opid := opid, loc := .Unknown, result_types := result_types,
    operands := operands, attributes := [] }

/-- `Operation::get_num_results`. -/
def Operation.get_num_results (op : Operation) : Nat := op.result_types.length

/-- `Operation::get_num_operands`. -/
def Operation.get_num_operands (op : Operation) : Nat := op.operands.length

/-- `op.attributes.get(key)`. -/
def Operation.getAttr (op : Operation) (key : List Char) : Option AttrObj :=
  (op.attributes.find? (fun p => p.1 = key)).map Prod.snd

/-- Modelled from the spec: `SameOperandsAndResultType::get_type`
(builtin `op_interfaces.rs` is not under `src/`) exposes the common
operand/result type, read from the op's single result; with no result
the accessor panics. -/
def Operation.sameOperandsAndResultType (op : Operation) : Option TypeObj :=
  op.result_types.head?

/-- `BinArithOp::new` (lines 27-41): a new operation with result types
`[lhs.get_type(ctx)]` and operands `[lhs, rhs]`. -/
def BinArithOp.new (opid : OpId) (lhs rhs : Value) : Operation :=
  Operation.new opid [lhs.get_type] [lhs, rhs]

/-- The `thiserror` message of `BinArithOpErr`. -/
def BinArithOpErrMsg : List Char :=
  ("Binary Arithmetic Op must have exactly two operands and one result").toList

/-- `BinArithOp::verify` (lines 43-53): exactly one result and two
operands. -/
def BinArithOp.verify (op : Operation) : Except Error Unit :=
  if op.get_num_results ≠ 1 ∨ op.get_num_operands ≠ 2 then
    .error (.leafCause .VerificationFailed op.loc BinArithOpErrMsg)
  else .ok ()

/-- The `thiserror` message of `IntBinArithOpErr`. -/
def IntBinArithOpErrMsg : List Char :=
  ("Integer binary arithmetic Op can only have signless integer result/operand type").toList

/-- `IntBinArithOp::verify` (lines 61-80): the common operand/result
type must be a signless `IntegerType` (in this embedding every `TypeObj`
is an `IntegerType`, so the failed-downcast branch of the source is not
reachable); a missing result makes the interface accessor panic. -/
def IntBinArithOp.verify (op : Operation) : AssertResult (Except Error Unit) :=
  match op.sameOperandsAndResultType with
  | none => .assertFailed
  | some (.integer int_ty) =>
    if int_ty.signedness ≠ Signedness.Signless then
      .ok (.error (.leafCause .VerificationFailed op.loc IntBinArithOpErrMsg))
    else .ok (.ok ())

/-- `ATTR_KEY_INTEGER_OVERFLOW_FLAGS` (line 83). -/
def ATTR_KEY_INTEGER_OVERFLOW_FLAGS : List Char :=
  ("llvm.integer_overflow_flags").toList

/-- The `thiserror` message of `IntBinArithOpWithOverflowFlagErr`. -/
def IntBinArithOpWithOverflowFlagErrMsg : List Char :=
  ("IntegerOverflowFlag missing on Op").toList

/-- A concrete operation carrying the overflow-flag attribute while
violating the ancestor interfaces' conditions: three operands (not two)
and a *signed* (not signless) integer result type. -/
def c9Op : Operation :=
  { opid := ⟨⟨("llvm").toList⟩, ("add").toList⟩
    loc := .Unknown
    result_types := [.integer ⟨32, .Signed⟩]
    operands :=
      [⟨("v1").toList, .integer ⟨32, .Signed⟩⟩,
       ⟨("v2").toList, .integer ⟨32, .Signed⟩⟩,
       ⟨("v3").toList, .integer ⟨32, .Signed⟩⟩]
    attributes := [(ATTR_KEY_INTEGER_OVERFLOW_FLAGS, .integerOverflowFlags .Nsw)] }

/-- `IntBinArithOpWithOverflowFlag::verify` (lines 117-129): succeed iff
the op carries an attribute of kind `IntegerOverflowFlagsAttr` under
`ATTR_KEY_INTEGER_OVERFLOW_FLAGS`; no other check is made. -/
def IntBinArithOpWithOverflowFlag.verify (op : Operation) : Except Error Unit :=
  match op.getAttr ATTR_KEY_INTEGER_OVERFLOW_FLAGS with
  | some attr =>
    if attr.isIntegerOverflowFlags then .ok ()
    else .error (.leafCause .VerificationFailed op.loc IntBinArithOpWithOverflowFlagErrMsg)
  | none => .error (.leafCause .VerificationFailed op.loc IntBinArithOpWithOverflowFlagErrMsg)

/-! ## Supporting lemmas -/

theorem Pos.advs_nil (p : Pos) : p.advs [] = p := rfl

theorem Pos.advs_cons (p : Pos) (c : Char) (l : List Char) :
    p.advs (c :: l) = (p.adv c).advs l := rfl

theorem Pos.advs_append (p : Pos) (l1 l2 : List Char) :
    p.advs (l1 ++ l2) = (p.advs l1).advs l2 := by
  simp [Pos.advs, List.foldl_append]

theorem isDigit_facts {c : Char} (h : c.isDigit = true) :
    isSignDigit c = true ∧ isSpace c = false ∧ c ≠ ':' ∧ c ≠ '>' ∧
      c ≠ '"' ∧ c ≠ '\\' ∧ c ≠ '-' ∧ c ≠ '+' := by
  have hsp : c ≠ ' ' := by rintro rfl; exact absurd h (by decide)
  have htab : c ≠ '\t' := by rintro rfl; exact absurd h (by decide)
  have hcr : c ≠ '\r' := by rintro rfl; exact absurd h (by decide)
  have hnl : c ≠ '\n' := by rintro rfl; exact absurd h (by decide)
  refine ⟨by simp [isSignDigit, h], by simp [isSpace, hsp, htab, hcr, hnl], ?_, ?_, ?_, ?_, ?_, ?_⟩
  all_goals rintro rfl; exact absurd h (by decide)

theorem signDigit_not_space {c : Char} (h : isSignDigit c = true) :
    isSpace c = false := by
  rcases Bool.or_eq_true_iff.mp h with h1 | h2
  · rcases Bool.or_eq_true_iff.mp h1 with hd | hm
    · exact (isDigit_facts hd).2.1
    · simp at hm; subst hm; decide
  · simp at h2; subst h2; decide

theorem signDigit_ne_colon {c : Char} (h : isSignDigit c = true) : c ≠ ':' := by
  rintro rfl; exact absurd h (by decide)

theorem takeWhile_append_all (p : Char → Bool) (l1 l2 : List Char)
    (h : ∀ c ∈ l1, p c = true) :
    (l1 ++ l2).takeWhile p = l1 ++ l2.takeWhile p := by
  induction l1 with
  | nil => simp
  | cons c cs ih =>
    simp only [List.cons_append, List.takeWhile_cons, h c (by simp)]
    simp [ih fun x hx => h x (by simp [hx])]

theorem dropWhile_append_all (p : Char → Bool) (l1 l2 : List Char)
    (h : ∀ c ∈ l1, p c = true) :
    (l1 ++ l2).dropWhile p = l2.dropWhile p := by
  induction l1 with
  | nil => simp
  | cons c cs ih =>
    simp only [List.cons_append, List.dropWhile_cons, h c (by simp)]
    simp [ih fun x hx => h x (by simp [hx])]

theorem dropWhile_eq_self_of_takeWhile_nil {p : Char → Bool} {l : List Char}
    (h : l.takeWhile p = []) : l.dropWhile p = l := by
  cases l with
  | nil => rfl
  | cons c cs =>
    simp only [List.takeWhile_cons] at h
    by_cases hc : p c = true
    · simp [hc] at h
    · simp only [Bool.not_eq_true] at hc
      simp [List.dropWhile_cons, hc]

theorem natDigitsAux_congr :
    ∀ (fuel : Nat), ∀ (fuel' n : Nat), n < fuel → n < fuel' →
      natDigitsAux fuel n = natDigitsAux fuel' n := by
  intro fuel
  induction fuel with
  | zero => intro fuel' n h _; exact absurd h (Nat.not_lt_zero n)
  | succ f ih =>
    intro fuel' n h h'
    cases fuel' with
    | zero => exact absurd h' (Nat.not_lt_zero n)
    | succ f' =>
      simp only [natDigitsAux]
      by_cases h10 : n < 10
      · simp [h10]
      · simp only [h10, if_false]
        have hdiv : n / 10 < n := Nat.div_lt_self (by omega) (by omega)
        rw [ih f' (n / 10) (by omega) (by omega)]

theorem natDigits_eq (n : Nat) :
    natDigits n =
      if n < 10 then [digitChar n]
      else natDigits (n / 10) ++ [digitChar (n % 10)] := by
  by_cases h : n < 10
  · simp [natDigits, natDigitsAux, h]
  · have hdiv : n / 10 < n := Nat.div_lt_self (by omega) (by omega)
    have lhs : natDigits n = natDigitsAux n (n / 10) ++ [digitChar (n % 10)] := by
      simp only [natDigits, natDigitsAux, h, if_false]
    rw [lhs, if_neg h]
    congr 1
    exact natDigitsAux_congr n (n / 10 + 1) (n / 10) (by omega) (by omega)

theorem natDigits_ne_nil (n : Nat) : natDigits n ≠ [] := by
  rw [natDigits_eq]; split <;> simp

theorem mem_natDigits {c : Char} (n : Nat) (h : c ∈ natDigits n) :
    ∃ d, d < 10 ∧ c = digitChar d := by
  induction n using Nat.strong_induction_on with
  | _ n ih =>
    rw [natDigits_eq] at h
    by_cases h10 : n < 10
    · rw [if_pos h10] at h
      simp only [List.mem_singleton] at h
      exact ⟨n, h10, h⟩
    · rw [if_neg h10] at h
      rcases List.mem_append.mp h with h1 | h2
      · exact ih (n / 10) (Nat.div_lt_self (by omega) (by omega)) h1
      · simp only [List.mem_singleton] at h2
        exact ⟨n % 10, Nat.mod_lt _ (by omega), h2⟩

theorem digitChar_isDigit {d : Nat} (h : d < 10) : (digitChar d).isDigit = true := by
  interval_cases d <;> decide

theorem digitChar_digVal {d : Nat} (h : d < 10) : digVal (digitChar d) = d := by
  interval_cases d <;> decide

theorem natDigits_all_digit (n : Nat) : ∀ c ∈ natDigits n, c.isDigit = true := by
  intro c hc
  obtain ⟨d, hd, rfl⟩ := mem_natDigits n hc
  exact digitChar_isDigit hd

theorem decNat_go (n : Nat) : ∀ acc : Nat,
    List.foldl (fun a c => a * 10 + digVal c) acc (natDigits n)
      = acc * 10 ^ (natDigits n).length + n := by
  induction n using Nat.strong_induction_on with
  | _ n ih =>
    intro acc
    rw [natDigits_eq]
    by_cases h10 : n < 10
    · simp [h10, digitChar_digVal h10]
    · have hdiv : n / 10 < n := Nat.div_lt_self (by omega) (by omega)
      simp only [h10, if_false, List.foldl_append, List.foldl_cons, List.foldl_nil,
        List.length_append, List.length_cons, List.length_nil]
      rw [ih (n / 10) hdiv acc, digitChar_digVal (Nat.mod_lt _ (by omega))]
      have hdm : 10 * (n / 10) + n % 10 = n := Nat.div_add_mod n 10
      calc (acc * 10 ^ (natDigits (n / 10)).length + n / 10) * 10 + n % 10
          = acc * (10 ^ (natDigits (n / 10)).length * 10)
              + (10 * (n / 10) + n % 10) := by ring
        _ = acc * 10 ^ ((natDigits (n / 10)).length + (0 + 1)) + n := by
            rw [hdm]; ring

theorem decNat_natDigits (n : Nat) : decNat (natDigits n) = n := by
  have h := decNat_go n 0
  simpa [decNat] using h

theorem escapeStr_append (s t : List Char) :
    escapeStr (s ++ t) = escapeStr s ++ escapeStr t := by
  induction s with
  | nil => rfl
  | cons c cs ih => simp [escapeStr, ih]

theorem escapeChar_backslash : escapeChar '\\' = ['\\', '\\'] := by decide

theorem escapeChar_quote : escapeChar '"' = ['\\', '"'] := by decide

theorem escapeChar_other {c : Char} (h1 : c ≠ '\\') (h2 : c ≠ '"') :
    escapeChar c = [c] := by
  simp [escapeChar, h1, h2]

theorem parseLoop_step_quote (acc rest : List Char) (pos : Pos) :
    StringAttr.parseLoop acc ('"' :: rest) pos = .ok ⟨acc.reverse⟩ rest (pos.adv '"') := by
  rw [StringAttr.parseLoop.eq_def]
  simp

theorem parseLoop_step_escape {c : Char} (hc : c = '\\' ∨ c = '"')
    (acc rest : List Char) (pos : Pos) :
    StringAttr.parseLoop acc ('\\' :: c :: rest) pos
      = StringAttr.parseLoop (c :: acc) rest ((pos.adv '\\').adv c) := by
  rw [StringAttr.parseLoop.eq_def]
  simp [hc]

theorem parseLoop_step_badEscape {c : Char} (hc1 : c ≠ '\\') (hc2 : c ≠ '"')
    (acc rest : List Char) (pos : Pos) :
    StringAttr.parseLoop acc ('\\' :: c :: rest) pos
      = .err (("Unexpected escaped character \\").toList ++ [c]) pos := by
  rw [StringAttr.parseLoop.eq_def]
  simp [hc1, hc2]

theorem parseLoop_step_other {c : Char} (h1 : c ≠ '"') (h2 : c ≠ '\\')
    (acc rest : List Char) (pos : Pos) :
    StringAttr.parseLoop acc (c :: rest) pos
      = StringAttr.parseLoop (c :: acc) rest (pos.adv c) := by
  rw [StringAttr.parseLoop.eq_def]
  simp [h1, h2]

theorem parseLoop_quoted (s : List Char) : ∀ (acc rest : List Char) (pos : Pos),
    StringAttr.parseLoop acc (escapeStr s ++ '"' :: rest) pos
      = .ok ⟨acc.reverse ++ s⟩ rest (Pos.advs pos (escapeStr s ++ ['"'])) := by
  induction s with
  | nil =>
    intro acc rest pos
    rw [show escapeStr [] = [] from rfl, List.nil_append, parseLoop_step_quote]
    simp [Pos.advs]
  | cons c cs ih =>
    intro acc rest pos
    rw [show escapeStr (c :: cs) = escapeChar c ++ escapeStr cs from rfl]
    by_cases hbs : c = '\\'
    · subst hbs
      rw [escapeChar_backslash]
      rw [List.append_assoc, List.cons_append, List.cons_append]
      rw [parseLoop_step_escape (Or.inl rfl), List.nil_append]
      rw [ih ('\\' :: acc) rest _]
      simp [Pos.advs_append, Pos.advs_cons, List.append_assoc]
    · by_cases hq : c = '"'
      · subst hq
        rw [escapeChar_quote]
        rw [List.append_assoc, List.cons_append, List.cons_append]
        rw [parseLoop_step_escape (Or.inr rfl), List.nil_append]
        rw [ih ('"' :: acc) rest _]
        simp [Pos.advs_append, Pos.advs_cons, List.append_assoc]
      · rw [escapeChar_other hbs hq]
        rw [List.append_assoc, List.singleton_append]
        rw [parseLoop_step_other hq hbs]
        rw [ih (c :: acc) rest _]
        simp [Pos.advs_append, Pos.advs_cons, List.append_assoc]

theorem StringAttr_parse_print (a : StringAttr) (pos : Pos) :
    StringAttr.parse a.print pos = .ok a [] (Pos.advs pos a.print) := by
  obtain ⟨s⟩ := a
  have hp : StringAttr.print ⟨s⟩ = '"' :: (escapeStr s ++ '"' :: []) := by
    simp [StringAttr.print, quoted]
  rw [hp, StringAttr.parse]
  rw [parseLoop_quoted s [] [] (pos.adv '"')]
  simp [Pos.advs_cons, Pos.advs_append]

theorem parseLoop_badEscape :
    ∀ (pre : List Char), (∀ x ∈ pre, x ≠ '"' ∧ x ≠ '\\') →
    ∀ (c : Char), c ≠ '\\' → c ≠ '"' →
    ∀ (post acc : List Char) (pos : Pos),
    StringAttr.parseLoop acc (pre ++ '\\' :: c :: post) pos
      = .err (("Unexpected escaped character \\").toList ++ [c]) (Pos.advs pos pre) := by
  intro pre
  induction pre with
  | nil =>
    intro _ c hc1 hc2 post acc pos
    rw [List.nil_append, parseLoop_step_badEscape hc1 hc2]
    simp [Pos.advs]
  | cons x pre' ih =>
    intro h c hc1 hc2 post acc pos
    have hx := h x (by simp)
    rw [List.cons_append, parseLoop_step_other hx.1 hx.2]
    rw [ih (fun y hy => h y (by simp [hy])) c hc1 hc2]
    simp [Pos.advs_cons]

theorem APInt.ext_of {a b : APInt} (h1 : a.bw = b.bw) (h2 : a.val = b.val) :
    a = b := by
  cases a; cases b; simp_all

theorem to_string_decimal_all_signDigit (a : APInt) (b : Bool) :
    ∀ c ∈ a.to_string_decimal b, isSignDigit c = true := by
  intro c hc
  simp only [APInt.to_string_decimal] at hc
  have hdig : ∀ x ∈ natDigits a.val, isSignDigit x = true := fun x hx =>
    (isDigit_facts (natDigits_all_digit _ x hx)).1
  have hdig2 : ∀ x ∈ natDigits (2 ^ a.bw - a.val), isSignDigit x = true := fun x hx =>
    (isDigit_facts (natDigits_all_digit _ x hx)).1
  cases b with
  | false => exact hdig c (by simpa using hc)
  | true =>
    by_cases hneg : 2 ^ (a.bw - 1) ≤ a.val
    · rw [if_pos rfl, if_pos hneg] at hc
      rcases List.mem_cons.mp hc with rfl | hmem
      · decide
      · exact hdig2 c hmem
    · rw [if_pos rfl, if_neg hneg] at hc
      exact hdig c hc

theorem to_string_decimal_ne_nil (a : APInt) (b : Bool) :
    a.to_string_decimal b ≠ [] := by
  simp only [APInt.to_string_decimal]
  split
  · split
    · simp
    · exact natDigits_ne_nil _
  · exact natDigits_ne_nil _

theorem from_str_neg_step (ds : List Char) (w : Nat) :
    APInt.from_str ('-' :: ds) w =
      if ds ≠ [] ∧ ds.all Char.isDigit then
        if 0 < w ∧ decNat ds ≤ 2 ^ (w - 1) then
          .ok ⟨w, (2 ^ w - decNat ds) % 2 ^ w, Nat.mod_lt _ (Nat.two_pow_pos w)⟩
        else .error (("value does not fit in the given bitwidth").toList)
      else .error (("invalid decimal digits").toList) := rfl

theorem from_str_pos_step (d : Char) (ds : List Char) (w : Nat)
    (h1 : d ≠ '-') (h2 : d ≠ '+') :
    APInt.from_str (d :: ds) w =
      if (d :: ds) ≠ [] ∧ (d :: ds).all Char.isDigit then
        if h : decNat (d :: ds) < 2 ^ w then .ok ⟨w, decNat (d :: ds), h⟩
        else .error (("value does not fit in the given bitwidth").toList)
      else .error (("invalid decimal digits").toList) := by
  simp only [APInt.from_str.eq_def]
  simp [h1, h2]

theorem from_str_natDigits (w v : Nat) (hlt : v < 2 ^ w) :
    APInt.from_str (natDigits v) w = .ok ⟨w, v, hlt⟩ := by
  obtain ⟨d, ds, hnd⟩ : ∃ d ds, natDigits v = d :: ds := by
    cases h : natDigits v with
    | nil => exact absurd h (natDigits_ne_nil v)
    | cons d ds => exact ⟨d, ds, rfl⟩
  have hdig := natDigits_all_digit v d (by rw [hnd]; simp)
  obtain ⟨_, _, _, _, _, _, hminus, hplus⟩ := isDigit_facts hdig
  have hall : ((d :: ds).all Char.isDigit) = true := by
    rw [← hnd]; exact List.all_eq_true.mpr (natDigits_all_digit v)
  rw [hnd, from_str_pos_step d ds w hminus hplus]
  rw [if_pos ⟨by simp, hall⟩]
  have hdec : decNat (d :: ds) = v := by rw [← hnd]; exact decNat_natDigits v
  rw [dif_pos (hdec ▸ hlt)]
  simp only [Except.ok.injEq]
  exact APInt.ext_of rfl hdec

theorem APInt.from_str_print (a : APInt) (b : Bool) :
    APInt.from_str (a.to_string_decimal b) a.bw = .ok a := by
  obtain ⟨w, v, hlt⟩ := a
  simp only [APInt.to_string_decimal]
  cases b with
  | false =>
    simpa using from_str_natDigits w v hlt
  | true =>
    rw [if_pos rfl]
    by_cases hneg : 2 ^ (w - 1) ≤ v
    · rw [if_pos hneg]
      have hw : 0 < w := by
        rcases Nat.eq_zero_or_pos w with rfl | hw
        · simp at hlt hneg; omega
        · exact hw
      have h2 : 2 ^ w = 2 ^ (w - 1) * 2 := by
        rw [← pow_succ]; congr 1; omega
      have hall : ((natDigits (2 ^ w - v)).all Char.isDigit) = true :=
        List.all_eq_true.mpr (natDigits_all_digit _)
      rw [from_str_neg_step]
      rw [if_pos ⟨natDigits_ne_nil _, hall⟩]
      rw [if_pos (by
        refine ⟨hw, ?_⟩
        rw [decNat_natDigits]
        omega)]
      simp only [Except.ok.injEq]
      refine APInt.ext_of rfl ?_
      simp only [decNat_natDigits]
      have hsub : 2 ^ w - (2 ^ w - v) = v := Nat.sub_sub_self (Nat.le_of_lt hlt)
      rw [hsub, Nat.mod_eq_of_lt hlt]
    · rw [if_neg hneg]
      exact from_str_natDigits w v hlt

theorem IntegerType_parse_ok (input : List Char) (s : Signedness) (r : List Char)
    (h : pchoice
      [(("si").toList, Signedness.Signed),
       (("ui").toList, Signedness.Unsigned),
       (("i").toList, Signedness.Signless)] input = .ok s r) :
    IntegerType.parse input =
      if r.takeWhile Char.isDigit = [] then .cfail (("expected decimal width").toList)
      else .ok ⟨decNat (r.takeWhile Char.isDigit), s⟩ (r.dropWhile Char.isDigit) := by
  unfold IntegerType.parse
  rw [h]

theorem IntegerType_parse_print (t : IntegerType) (rest : List Char)
    (hrest : rest.takeWhile Char.isDigit = []) :
    IntegerType.parse (t.print ++ rest) = .ok t rest := by
  obtain ⟨w, sg⟩ := t
  have hdig : ∀ c ∈ natDigits w, Char.isDigit c = true := natDigits_all_digit w
  have htake : (natDigits w ++ rest).takeWhile Char.isDigit = natDigits w := by
    rw [takeWhile_append_all _ _ _ hdig, hrest, List.append_nil]
  have hdrop : (natDigits w ++ rest).dropWhile Char.isDigit = rest := by
    rw [dropWhile_append_all _ _ _ hdig, dropWhile_eq_self_of_takeWhile_nil hrest]
  have hne : natDigits w ≠ [] := natDigits_ne_nil w
  cases sg with
  | Signed =>
    have hp : IntegerType.print ⟨w, Signedness.Signed⟩ ++ rest
        = 's' :: 'i' :: (natDigits w ++ rest) := by
      simp [IntegerType.print, Signedness.print]
    rw [hp,
      IntegerType_parse_ok ('s' :: 'i' :: (natDigits w ++ rest))
        Signedness.Signed (natDigits w ++ rest) rfl]
    rw [htake, hdrop, if_neg hne, decNat_natDigits]
  | Unsigned =>
    have hp : IntegerType.print ⟨w, Signedness.Unsigned⟩ ++ rest
        = 'u' :: 'i' :: (natDigits w ++ rest) := by
      simp [IntegerType.print, Signedness.print]
    rw [hp,
      IntegerType_parse_ok ('u' :: 'i' :: (natDigits w ++ rest))
        Signedness.Unsigned (natDigits w ++ rest) rfl]
    rw [htake, hdrop, if_neg hne, decNat_natDigits]
  | Signless =>
    have hp : IntegerType.print ⟨w, Signedness.Signless⟩ ++ rest
        = 'i' :: (natDigits w ++ rest) := by
      simp [IntegerType.print, Signedness.print]
    rw [hp,
      IntegerType_parse_ok ('i' :: (natDigits w ++ rest))
        Signedness.Signless (natDigits w ++ rest) rfl]
    rw [htake, hdrop, if_neg hne, decNat_natDigits]

theorem IntegerAttr_parse_lt (rest : List Char) :
    IntegerAttr.parse ('<' :: rest) =
      (let rest1 := rest.dropWhile isSpace
       let digits := rest1.takeWhile isSignDigit
       let rest2 := rest1.dropWhile isSignDigit
       if digits = [] then .cfail (("expected digit, sign").toList)
       else
         match rest2.dropWhile isSpace with
         | [] => .cfail (("expected colon").toList)
         | c1 :: rest3 =>
           if c1 ≠ ':' then .cfail (("expected colon").toList)
           else
             let rest4 := rest3.dropWhile isSpace
             match IntegerType.parse rest4 with
             | .ok ty rest5 =>
               match rest5 with
               | [] => .cfail (("expected closing angle bracket").toList)
               | c2 :: rest6 =>
                 if c2 ≠ '>' then .cfail (("expected closing angle bracket").toList)
                 else
                   match APInt.from_str digits ty.width with
                   | .ok v => .ok ⟨ty, v⟩ rest6
                   | .error e => .cfail e
             | .efail m => .cfail m
             | .cfail m => .cfail m) := rfl

theorem IntegerType_print_head (t : IntegerType) :
    ∃ c cs, t.print = c :: cs ∧ isSpace c = false := by
  obtain ⟨w, sg⟩ := t
  cases sg with
  | Signed =>
    exact ⟨'s', 'i' :: natDigits w, by simp [IntegerType.print, Signedness.print], by decide⟩
  | Unsigned =>
    exact ⟨'u', 'i' :: natDigits w, by simp [IntegerType.print, Signedness.print], by decide⟩
  | Signless =>
    exact ⟨'i', natDigits w, by simp [IntegerType.print, Signedness.print], by decide⟩

theorem IntegerAttr_parse_print (a : IntegerAttr) (h : a.val.bw = a.ty.width) :
    IntegerAttr.parse a.print = .ok a [] := by
  obtain ⟨ty, v⟩ := a
  simp only at h
  set b := decide (ty.signedness = Signedness.Signed) with hb
  set D := v.to_string_decimal b with hD
  set T := ty.print with hT
  have hDsd : ∀ c ∈ D, isSignDigit c = true := fun c hc =>
    to_string_decimal_all_signDigit v b c (by rw [← hD]; exact hc)
  have hDne : D ≠ [] := by rw [hD]; exact to_string_decimal_ne_nil v b
  obtain ⟨d, ds, hDcons⟩ : ∃ d ds, D = d :: ds := by
    cases hc : D with
    | nil => exact absurd hc hDne
    | cons d ds => exact ⟨d, ds, rfl⟩
  have hd_sp : isSpace d = false :=
    signDigit_not_space (hDsd d (by rw [hDcons]; simp))
  obtain ⟨tc, tcs, hTcons, hTsp⟩ := IntegerType_print_head ty
  have hcolon : ((": ").toList : List Char) = [':', ' '] := rfl
  have hp : IntegerAttr.print ⟨ty, v⟩ = '<' :: (D ++ ':' :: ' ' :: (T ++ ['>'])) := by
    simp only [IntegerAttr.print, ← hb, ← hD, ← hT, hcolon]
    simp
  have e1 : (D ++ ':' :: ' ' :: (T ++ ['>'])).dropWhile isSpace
      = D ++ ':' :: ' ' :: (T ++ ['>']) := by
    rw [hDcons, List.cons_append]
    exact List.dropWhile_cons_of_neg (by simp [hd_sp])
  have e2 : (D ++ ':' :: ' ' :: (T ++ ['>'])).takeWhile isSignDigit = D := by
    rw [takeWhile_append_all _ _ _ hDsd,
      List.takeWhile_cons_of_neg (by decide), List.append_nil]
  have e3 : (D ++ ':' :: ' ' :: (T ++ ['>'])).dropWhile isSignDigit
      = ':' :: ' ' :: (T ++ ['>']) := by
    rw [dropWhile_append_all _ _ _ hDsd]
    exact List.dropWhile_cons_of_neg (by decide)
  have e4 : (':' :: ' ' :: (T ++ ['>'])).dropWhile isSpace
      = ':' :: ' ' :: (T ++ ['>']) :=
    List.dropWhile_cons_of_neg (by decide)
  have e5 : (' ' :: (T ++ ['>'])).dropWhile isSpace = T ++ ['>'] := by
    rw [List.dropWhile_cons_of_pos (by decide), hT, hTcons, List.cons_append]
    exact List.dropWhile_cons_of_neg (by simp [hTsp])
  have e6 : IntegerType.parse (T ++ ['>']) = .ok ty ['>'] := by
    rw [hT]
    exact IntegerType_parse_print ty ['>'] (by decide)
  have e7 : APInt.from_str D ty.width = .ok v := by
    rw [hD, ← h]
    exact APInt.from_str_print v b
  rw [hp, IntegerAttr_parse_lt]
  simp only [e1, e2, e3, e4, e5, e6, e7, if_neg hDne]
  simp

theorem TypeAttr_parse_print (t : TypeAttr) : TypeAttr.parse t.print = .ok t [] := by
  obtain ⟨ty⟩ := t
  obtain ⟨it⟩ := ty
  have hparse : IntegerType.parse it.print = .ok it [] := by
    simpa using IntegerType_parse_print it [] (by rfl)
  simp [TypeAttr.parse, TypeAttr.print, TypeObj.parse, TypeObj.print, hparse]

theorem parse_id_split (c : Char) (ids rest : List Char)
    (hstart : isIdStart c = true)
    (hall : ∀ x ∈ c :: ids, isIdChar x = true)
    (hrest : rest.takeWhile isIdChar = []) :
    parse_id ((c :: ids) ++ rest) = some (c :: ids, rest) := by
  rw [List.cons_append]
  simp only [parse_id, if_pos hstart]
  rw [← List.cons_append]
  rw [takeWhile_append_all _ _ _ hall, hrest, List.append_nil]
  rw [dropWhile_append_all _ _ _ hall, dropWhile_eq_self_of_takeWhile_nil hrest]

theorem error_print_loc_prefix (e : Error) :
    ("[").toList ++ e.loc.print ++ ("]").toList <+: e.print := by
  have hsplit : (("] Compilation error: ").toList : List Char)
      = ("]").toList ++ (" Compilation error: ").toList := rfl
  cases e with
  | leafCause k l m =>
    refine ⟨(" Compilation error: ").toList ++ k.msg ++ (".").toList
      ++ [Char.ofNat 10] ++ m, ?_⟩
    simp [Error.print, Error.loc, hsplit, List.append_assoc]
  | errCause k l inner =>
    refine ⟨(" Compilation error: ").toList ++ k.msg ++ (".").toList
      ++ [Char.ofNat 10] ++ inner.print, ?_⟩
    simp [Error.print, Error.loc, hsplit, List.append_assoc]

/-! ## Claim theorems -/

/-- C1: the claim states that parse-after-print is the identity on every
value of `IntegerOverflowFlagsAttr` and `ICmpPredicateAttr`.  The code
violates this: the parsers' `choice` has no `attempt`, so an alternative
that fails after consuming a shared prefix aborts the whole choice.
Evaluating the embedded parsers at the failing inputs: `nsw`, `nuw`,
`sle`, `sgt`, `sge`, `ule`, `ugt`, `uge` all fail to parse (consumed
failure), while `none` and `eq` still round-trip. -/
theorem C1_roundtrip_fails_on_code :
    IntegerOverflowFlagsAttr.parse (IntegerOverflowFlagsAttr.print .Nsw)
      = .cfail (("unexpected ").toList ++ ['s'])
    ∧ IntegerOverflowFlagsAttr.parse (IntegerOverflowFlagsAttr.print .Nuw)
      = .cfail (("unexpected ").toList ++ ['u'])
    ∧ ICmpPredicateAttr.parse (ICmpPredicateAttr.print .SLE)
      = .cfail (("unexpected ").toList ++ ['e'])
    ∧ ICmpPredicateAttr.parse (ICmpPredicateAttr.print .SGT)
      = .cfail (("unexpected ").toList ++ ['g'])
    ∧ ICmpPredicateAttr.parse (ICmpPredicateAttr.print .SGE)
      = .cfail (("unexpected ").toList ++ ['g'])
    ∧ ICmpPredicateAttr.parse (ICmpPredicateAttr.print .ULE)
      = .cfail (("unexpected ").toList ++ ['e'])
    ∧ ICmpPredicateAttr.parse (ICmpPredicateAttr.print .UGT)
      = .cfail (("unexpected ").toList ++ ['g'])
    ∧ ICmpPredicateAttr.parse (ICmpPredicateAttr.print .UGE)
      = .cfail (("unexpected ").toList ++ ['g'])
    ∧ IntegerOverflowFlagsAttr.parse (IntegerOverflowFlagsAttr.print .None)
      = .ok .None []
    ∧ ICmpPredicateAttr.parse (ICmpPredicateAttr.print .EQ) = .ok .EQ [] := by
  refine ⟨?_, ?_, ?_, ?_, ?_, ?_, ?_, ?_, ?_, ?_⟩ <;> decide

/-- C2 counterexample: the claim quantifies over *every* `IntegerAttr`
value, but an attribute whose payload bit width (32) differs from its
declared type's width (64) — constructible under the two-phase
build-then-verify discipline — does not round-trip: the parser rebuilds
the payload at the type's width, producing a different (64-bit) value. -/
theorem C2_counterexample :
    IntegerAttr.parse
        (IntegerAttr.print ⟨⟨64, Signedness.Signed⟩, ⟨32, 5, by norm_num⟩⟩)
      = .ok ⟨⟨64, Signedness.Signed⟩, ⟨64, 5, by norm_num⟩⟩ []
    ∧ (⟨⟨64, Signedness.Signed⟩, ⟨64, 5, by norm_num⟩⟩ : IntegerAttr)
      ≠ ⟨⟨64, Signedness.Signed⟩, ⟨32, 5, by norm_num⟩⟩ := by
  constructor <;> decide

/-- C2 (amended): parsing the printed form reproduces an equal value —
for every `StringAttr`, for every `IntegerAttr` *whose payload bit width
equals its declared type's bit width*, and for every `TypeAttr`; the
parser consumes the whole printed text.  Since each value parses back to
itself, re-printing the parsed value reproduces the identical text. -/
theorem C2_roundtrip :
    (∀ (a : StringAttr) (pos : Pos),
      StringAttr.parse a.print pos = .ok a [] (Pos.advs pos a.print))
    ∧ (∀ a : IntegerAttr, a.val.bw = a.ty.width →
      IntegerAttr.parse a.print = .ok a [])
    ∧ (∀ t : TypeAttr, TypeAttr.parse t.print = .ok t []) :=
  ⟨StringAttr_parse_print, IntegerAttr_parse_print, TypeAttr_parse_print⟩

/-- C2 witness: the amended round trip evaluated at the concrete
attribute `<15: si64>` with matching widths 64/64. -/
theorem C2_roundtrip_witness :
    ((⟨⟨64, Signedness.Signed⟩, ⟨64, 15, by norm_num⟩⟩ : IntegerAttr).val.bw
      = (⟨⟨64, Signedness.Signed⟩, ⟨64, 15, by norm_num⟩⟩ : IntegerAttr).ty.width)
    ∧ IntegerAttr.parse
        (IntegerAttr.print ⟨⟨64, Signedness.Signed⟩, ⟨64, 15, by norm_num⟩⟩)
      = .ok ⟨⟨64, Signedness.Signed⟩, ⟨64, 15, by norm_num⟩⟩ [] :=
  ⟨by decide, C2_roundtrip.2.1 ⟨⟨64, Signedness.Signed⟩, ⟨64, 15, by norm_num⟩⟩ (by decide)⟩

/-- C3 counterexample: on the input `"hello \k "` starting at line 1
column 1, the backslash is at column 8 and `k` at column 9.  The code
reports the error at column 8 (the backslash, whose position the source
captures *before* parsing the escape), not at column 9 (the offending
character), refuting the claim's "located at that character's line and
column". -/
theorem C3_counterexample :
    StringAttr.parse (("\"hello \\k \"").toList) ⟨1, 1⟩
      = .err ((("Unexpected escaped character \\").toList ++ ['k'])) ⟨1, 8⟩
    ∧ (⟨1, 8⟩ : Pos) ≠ ⟨1, 9⟩ := by
  constructor <;> decide

/-- C3 (amended): `StringAttr::parse` recognizes exactly the escapes
`\\` and `\"`; any other escaped character `c` fails with
`Unexpected escaped character \c` located at the *backslash's* line and
column (the start of the escape sequence, one position before `c`); all
other characters are copied verbatim until the unescaped closing quote;
and `"hello \"world\""` parses to the payload `hello "world"`. -/
theorem C3_string_escape_spec :
    (∀ (pre : List Char) (c : Char) (post : List Char) (pos : Pos),
      (∀ x ∈ pre, x ≠ '"' ∧ x ≠ '\\') → c ≠ '\\' → c ≠ '"' →
      StringAttr.parse ('"' :: (pre ++ '\\' :: c :: post)) pos
        = .err (("Unexpected escaped character \\").toList ++ [c])
            (Pos.advs (pos.adv '"') pre))
    ∧ (∀ (s : List Char) (pos : Pos),
      StringAttr.parse (quoted s) pos = .ok ⟨s⟩ [] (Pos.advs pos (quoted s)))
    ∧ StringAttr.parse (("\"hello \\\"world\\\"\"").toList) ⟨1, 1⟩
        = .ok ⟨("hello \"world\"").toList⟩ [] ⟨1, 18⟩
    ∧ StringAttr.print ⟨("hello \"world\"").toList⟩
        = ("\"hello \\\"world\\\"\"").toList := by
  refine ⟨?_, ?_, by decide, by decide⟩
  · intro pre c post pos hpre hc1 hc2
    rw [StringAttr.parse]
    exact parseLoop_badEscape pre hpre c hc1 hc2 post [] (pos.adv '"')
  · intro s pos
    have h := StringAttr_parse_print ⟨s⟩ pos
    simpa [StringAttr.print] using h

/-- C3 witness: the amended error-location statement evaluated on
`"hello \k "` from line 1 column 1: the error is reported at the
backslash, i.e. at `Pos.advs` over the quote and the six payload
characters before it (column 8). -/
theorem C3_string_escape_spec_witness :
    StringAttr.parse ('"' :: ((("hello ").toList) ++ '\\' :: 'k' :: ((" \"").toList))) ⟨1, 1⟩
      = .err (("Unexpected escaped character \\").toList ++ ['k'])
          (Pos.advs (Pos.adv ⟨1, 1⟩ '"') (("hello ").toList)) :=
  C3_string_escape_spec.1 (("hello ").toList) 'k' ((" \"").toList) ⟨1, 1⟩
    (by decide) (by decide) (by decide)

/-- C4: `DialectName::parse` on an identifier followed by a
non-identifier boundary: if the identifier is not a key of the Context's
dialect table the parse fails with a recoverable `InvalidInput` error
`Unregistered dialect {name}` located at the identifier's start
position; if it is registered, the parse succeeds with that
`DialectName` and the rest of the input. -/
theorem C4_dialect_name_parse (ctx : Context) (c : Char) (ids rest : List Char)
    (pos : Pos) (hstart : isIdStart c = true)
    (hall : ∀ x ∈ c :: ids, isIdChar x = true)
    (hrest : rest.takeWhile isIdChar = []) :
    (ctx.containsDialect ⟨c :: ids⟩ = false →
      DialectName.parse ctx ((c :: ids) ++ rest) pos
        = .error ⟨.InvalidInput, ("Unregistered dialect ").toList ++ (c :: ids), pos⟩)
    ∧ (ctx.containsDialect ⟨c :: ids⟩ = true →
      DialectName.parse ctx ((c :: ids) ++ rest) pos = .ok (⟨c :: ids⟩, rest)) := by
  have hpid := parse_id_split c ids rest hstart hall hrest
  rw [List.cons_append] at hpid
  constructor <;> intro hmem <;>
    simp [DialectName.parse, List.cons_append, hpid, hmem]

/-- C4 witness: `non_existant` is rejected against an empty dialect
table with `Unregistered dialect non_existant` at the start position,
and `builtin` is accepted once a dialect of that name is registered. -/
theorem C4_dialect_name_parse_witness :
    (DialectName.parse ⟨[]⟩ (('n' :: ("on_existant").toList) ++ []) ⟨1, 1⟩
      = .error ⟨.InvalidInput,
          ("Unregistered dialect ").toList ++ ('n' :: ("on_existant").toList), ⟨1, 1⟩⟩)
    ∧ (DialectName.parse
        ⟨[(⟨("builtin").toList⟩, ⟨⟨("builtin").toList⟩, [], [], []⟩)]⟩
        (('b' :: ("uiltin").toList) ++ []) ⟨1, 1⟩
      = .ok (⟨'b' :: ("uiltin").toList⟩, [])) :=
  ⟨(C4_dialect_name_parse ⟨[]⟩ 'n' (("on_existant").toList) [] ⟨1, 1⟩
      (by decide) (by decide) (by decide)).1 (by decide),
   (C4_dialect_name_parse
      ⟨[(⟨("builtin").toList⟩, ⟨⟨("builtin").toList⟩, [], [], []⟩)]⟩
      'b' (("uiltin").toList) [] ⟨1, 1⟩
      (by decide) (by decide) (by decide)).2 (by decide)⟩

/-- C5: `Dialect::register` is insert-if-absent: registering a dialect
whose name is already present leaves the table exactly as it was (no
error, no overwrite), registering into a table without the name appends
it, and registering a same-named dialect twice equals registering it
once. -/
theorem C5_register_insert_if_absent (ctx : Context) (d d' : Dialect)
    (hname : d'.name = d.name) :
    Dialect.register d' (Dialect.register d ctx) = Dialect.register d ctx
    ∧ (ctx.containsDialect d'.name = true → Dialect.register d' ctx = ctx)
    ∧ (ctx.containsDialect d'.name = false →
        Dialect.register d' ctx = { dialects := ctx.dialects ++ [(d'.name, d')] }) := by
  have hcont : (Dialect.register d ctx).containsDialect d.name = true := by
    unfold Dialect.register
    by_cases hc : ctx.containsDialect d.name
    · simp [hc]
    · simp only [hc, if_false]
      simp [Context.containsDialect]
  refine ⟨?_, ?_, ?_⟩
  · rw [Dialect.register.eq_def]
    rw [hname, hcont, if_pos rfl]
  · intro hc
    unfold Dialect.register
    rw [hc, if_pos rfl]
  · intro hc
    unfold Dialect.register
    rw [hc]
    simp

/-- C5 witness: registering the same-named dialect twice after an empty
table equals registering it once. -/
theorem C5_register_witness :
    Dialect.register ⟨⟨("llvm").toList⟩, [], [], []⟩
        (Dialect.register ⟨⟨("llvm").toList⟩, [], [], []⟩ ⟨[]⟩)
      = Dialect.register ⟨⟨("llvm").toList⟩, [], [], []⟩ ⟨[]⟩ :=
  (C5_register_insert_if_absent ⟨[]⟩ ⟨⟨("llvm").toList⟩, [], [], []⟩
    ⟨⟨("llvm").toList⟩, [], [], []⟩ rfl).1

/-- C6: `IntegerAttr::verify` succeeds exactly when the declared type's
bit width equals the payload's bit width; on a mismatch it returns the
`VerificationFailed` error with the bitwidth-mismatch cause (and
`Location::Unknown`, since `verify_err_noloc!` is used). -/
theorem C6_integer_attr_verify (a : IntegerAttr) :
    (IntegerAttr.verify a = .ok () ↔ a.ty.width = a.val.bw)
    ∧ (a.ty.width ≠ a.val.bw →
      IntegerAttr.verify a
        = .error (.leafCause .VerificationFailed .Unknown IntegerAttrBitwidthErrMsg)) := by
  unfold IntegerAttr.verify
  constructor
  · constructor
    · intro h
      by_contra hne
      simp [hne] at h
    · intro h
      simp [h]
  · intro h
    simp [h]

/-- C6 witness: widths 64/32 mismatch fails verification with the
bitwidth error; widths 64/64 verify successfully. -/
theorem C6_integer_attr_verify_witness :
    ((⟨⟨64, Signedness.Signed⟩, ⟨32, 0, by norm_num⟩⟩ : IntegerAttr).ty.width
      ≠ (⟨⟨64, Signedness.Signed⟩, ⟨32, 0, by norm_num⟩⟩ : IntegerAttr).val.bw)
    ∧ IntegerAttr.verify ⟨⟨64, Signedness.Signed⟩, ⟨32, 0, by norm_num⟩⟩
      = .error (.leafCause .VerificationFailed .Unknown IntegerAttrBitwidthErrMsg)
    ∧ IntegerAttr.verify ⟨⟨64, Signedness.Signed⟩, ⟨64, 0, by norm_num⟩⟩ = .ok () :=
  ⟨by decide,
   (C6_integer_attr_verify ⟨⟨64, Signedness.Signed⟩, ⟨32, 0, by norm_num⟩⟩).2 (by decide),
   (C6_integer_attr_verify ⟨⟨64, Signedness.Signed⟩, ⟨64, 0, by norm_num⟩⟩).1.mpr (by decide)⟩

/-- C7: rendering an `Error` prints
`[<location>] Compilation error: <kind message>.` on one line followed
by the cause — the cause's own message for a non-`Error` cause, the
recursive rendering for an `Error` cause.  Wrapping an error as the
cause of a new error with a new location keeps the inner error (and
hence its own location) unchanged, so the rendering shows the outer
location first and the inner error's location within the recursively
rendered suffix. -/
theorem C7_error_rendering (k : ErrorKind) (l : Location) (inner : Error)
    (m : List Char) :
    (Error.leafCause k l m).print
      = ("[").toList ++ l.print ++ ("] Compilation error: ").toList
          ++ k.msg ++ (".").toList ++ [Char.ofNat 10] ++ m
    ∧ (Error.wrap k l inner).print
      = ("[").toList ++ l.print ++ ("] Compilation error: ").toList
          ++ k.msg ++ (".").toList ++ [Char.ofNat 10] ++ inner.print
    ∧ (Error.wrap k l inner).loc = l
    ∧ (Error.wrap k l inner).cause? = some inner
    ∧ inner.print <:+ (Error.wrap k l inner).print
    ∧ ("[").toList ++ inner.loc.print ++ ("]").toList <+: inner.print := by
  refine ⟨by simp [Error.print, List.append_assoc], ?_, rfl, rfl, ?_, error_print_loc_prefix inner⟩
  · simp [Error.wrap, Error.print, List.append_assoc]
  · refine ⟨("[").toList ++ l.print ++ ("] Compilation error: ").toList
      ++ k.msg ++ (".").toList ++ [Char.ofNat 10], ?_⟩
    simp [Error.wrap, Error.print, List.append_assoc]

/-- C8: `Dialect::add_op`, `add_type` and `add_attr` abort on a failed
assertion (never a recoverable error — their result type has no error
alternative) whenever the id's dialect component differs from the
Dialect's own name, and under the matching-name precondition they
succeed and append the id. -/
theorem C8_add_asserts_dialect (d : Dialect) (op : OpId) (ty : TypeId)
    (attr : AttrId) :
    (op.dialect ≠ d.name → d.add_op op = .assertFailed)
    ∧ (op.dialect = d.name → d.add_op op = .ok { d with ops := d.ops ++ [op] })
    ∧ (ty.dialect ≠ d.name → d.add_type ty = .assertFailed)
    ∧ (ty.dialect = d.name → d.add_type ty = .ok { d with types := d.types ++ [ty] })
    ∧ (attr.dialect ≠ d.name → d.add_attr attr = .assertFailed)
    ∧ (attr.dialect = d.name →
        d.add_attr attr = .ok { d with attributes := d.attributes ++ [attr] }) := by
  refine ⟨?_, ?_, ?_, ?_, ?_, ?_⟩ <;> intro h <;>
    simp [Dialect.add_op, Dialect.add_type, Dialect.add_attr, h]

/-- C8 witness: adding `other.op` to the `llvm` dialect aborts; adding
`llvm.op` succeeds and appends it. -/
theorem C8_add_asserts_dialect_witness :
    Dialect.add_op ⟨⟨("llvm").toList⟩, [], [], []⟩
        ⟨⟨("other").toList⟩, ("op").toList⟩ = .assertFailed
    ∧ Dialect.add_op ⟨⟨("llvm").toList⟩, [], [], []⟩
        ⟨⟨("llvm").toList⟩, ("op").toList⟩
      = .ok ⟨⟨("llvm").toList⟩, [⟨⟨("llvm").toList⟩, ("op").toList⟩], [], []⟩ :=
  ⟨(C8_add_asserts_dialect ⟨⟨("llvm").toList⟩, [], [], []⟩
      ⟨⟨("other").toList⟩, ("op").toList⟩
      ⟨⟨("other").toList⟩, ("ty").toList⟩
      ⟨⟨("other").toList⟩, ("at").toList⟩).1 (by decide),
   (C8_add_asserts_dialect ⟨⟨("llvm").toList⟩, [], [], []⟩
      ⟨⟨("llvm").toList⟩, ("op").toList⟩
      ⟨⟨("other").toList⟩, ("ty").toList⟩
      ⟨⟨("other").toList⟩, ("at").toList⟩).2.1 (by decide)⟩

/-- C9: `IntBinArithOpWithOverflowFlag::verify` checks only that the op
carries an `IntegerOverflowFlagsAttr` under
`llvm.integer_overflow_flags` and does not invoke the ancestor
interfaces' checks: any op with that attribute passes, including the
concrete `c9Op`, which has three operands and a signed (not signless)
result type, so `BinArithOp::verify` and `IntBinArithOp::verify` both
reject it while the overflow-flag verify accepts it. -/
theorem C9_flat_interface_verify :
    (∀ (op : Operation) (f : IntegerOverflowFlagsAttr),
      op.getAttr ATTR_KEY_INTEGER_OVERFLOW_FLAGS = some (.integerOverflowFlags f) →
      IntBinArithOpWithOverflowFlag.verify op = .ok ())
    ∧ IntBinArithOpWithOverflowFlag.verify c9Op = .ok ()
    ∧ BinArithOp.verify c9Op
      = .error (.leafCause .VerificationFailed .Unknown BinArithOpErrMsg)
    ∧ IntBinArithOp.verify c9Op
      = .ok (.error (.leafCause .VerificationFailed .Unknown IntBinArithOpErrMsg)) := by
  refine ⟨?_, by rfl, by rfl, by rfl⟩
  intro op f hattr
  simp [IntBinArithOpWithOverflowFlag.verify, hattr, AttrObj.isIntegerOverflowFlags]

/-- C9 witness: the general flag-only statement evaluated at `c9Op`. -/
theorem C9_flat_interface_verify_witness :
    c9Op.getAttr ATTR_KEY_INTEGER_OVERFLOW_FLAGS
      = some (.integerOverflowFlags .Nsw)
    ∧ IntBinArithOpWithOverflowFlag.verify c9Op = .ok () :=
  ⟨by decide, C9_flat_interface_verify.1 c9Op .Nsw (by decide)⟩

/-- C10: an operation built by `BinArithOp::new(ctx, lhs, rhs)` has
exactly the two operands `lhs` then `rhs` and exactly one result whose
type is the type of `lhs`, and therefore `BinArithOp::verify` accepts
every freshly built operation. -/
theorem C10_bin_arith_new_verifies (opid : OpId) (lhs rhs : Value) :
    (BinArithOp.new opid lhs rhs).operands = [lhs, rhs]
    ∧ (BinArithOp.new opid lhs rhs).result_types = [lhs.get_type]
    ∧ BinArithOp.verify (BinArithOp.new opid lhs rhs) = .ok () := by
  refine ⟨rfl, rfl, ?_⟩
  simp [BinArithOp.verify, BinArithOp.new, Operation.new,
    Operation.get_num_results, Operation.get_num_operands]

end Pliron
